import Mathlib

/-!
# Verification of the `std-logger-parser` logfmt parser

A shallow embedding of `src/parser/src/lib.rs` (the `std_logger_parser`
crate). Byte strings are `List Nat` (each element a byte value). Rust
functions that can panic are embedded as `Option`-returning functions where
`none` marks a panic (an out-of-bounds slice index or an overflowing
`SystemTime` addition). Fallible parsing functions return `Except` values
mirroring the Rust `Result` types.

External collaborators (`std` and `libc` functions called by the source)
are embedded by their documented behaviour: UTF-8 validation
(`str::from_utf8`), integer parsing (`FromStr` for the integer types),
float parsing (`f64::from_str`, with the numeric value kept as an exact
rational), `log::Level::from_str`, and `libc::timegm` (proleptic-Gregorian
civil-time arithmetic in UTC).
-/

/-- A byte of the input stream (value `0`–`255`). -/
abbrev Byte := Nat

/-- Bytes of an ASCII string literal (used for concrete inputs and for the
key constants `ts`, `lvl`, …; all are pure ASCII so the char codes are the
UTF-8 bytes). -/
def ascii (s : String) : List Byte := s.data.map Char.toNat

/-! ## External collaborator: UTF-8 validation (`str::from_utf8`)

Standard RFC 3629 validation, as performed by `core::str::from_utf8`. -/

/-- Is `b` a UTF-8 continuation byte (`0x80`–`0xBF`)? -/
def isUtf8Cont (b : Byte) : Bool := 128 ≤ b && b ≤ 191

/-- UTF-8 validity of a byte sequence, following the byte-range table used
by `core::str::from_utf8`. -/
def utf8Valid : List Byte → Bool
  | [] => true
  | b :: rest =>
    if b ≤ 127 then utf8Valid rest
    else
      match rest with
      | [] => false
      | b1 :: rest1 =>
        if 194 ≤ b && b ≤ 223 then isUtf8Cont b1 && utf8Valid rest1
        else
          match rest1 with
          | [] => false
          | b2 :: rest2 =>
            if b == 224 then (160 ≤ b1 && b1 ≤ 191) && isUtf8Cont b2 && utf8Valid rest2
            else if (225 ≤ b && b ≤ 236) || b == 238 || b == 239 then
              isUtf8Cont b1 && isUtf8Cont b2 && utf8Valid rest2
            else if b == 237 then (128 ≤ b1 && b1 ≤ 159) && isUtf8Cont b2 && utf8Valid rest2
            else
              match rest2 with
              | [] => false
              | b3 :: rest3 =>
                if b == 240 then
                  (144 ≤ b1 && b1 ≤ 191) && isUtf8Cont b2 && isUtf8Cont b3 && utf8Valid rest3
                else if 241 ≤ b && b ≤ 243 then
                  isUtf8Cont b1 && isUtf8Cont b2 && isUtf8Cont b3 && utf8Valid rest3
                else if b == 244 then
                  (128 ≤ b1 && b1 ≤ 143) && isUtf8Cont b2 && isUtf8Cont b3 && utf8Valid rest3
                else false

/-! ## External collaborator: integer parsing (`FromStr` for `iN`/`uN`)

Rust's `from_str_radix` with radix 10: an optional sign (`+` always, `-`
only for signed types), then one or more ASCII digits, nothing else, and
the value must fit the type's range. -/

/-- Is `b` an ASCII digit? -/
def isDigitByte (b : Byte) : Bool := 48 ≤ b && b ≤ 57

/-- Numeric value of a digit sequence (digits already validated). -/
def digitsToNat (l : List Byte) : Nat := l.foldl (fun acc b => acc * 10 + (b - 48)) 0

/-- Rust `FromStr` for a radix-10 integer type with range `[lo, hi]`.
`signed` enables a leading `-`; a leading `+` is always allowed. -/
def parseIntRust (signed : Bool) (lo hi : Int) (s : List Byte) : Option Int :=
  let (neg, digits) :=
    match s with
    | 43 :: rest => (false, rest)
    | 45 :: rest => (true, rest)
    | rest => (false, rest)
  if neg && !signed then none
  else if digits.isEmpty then none
  else if !(digits.all isDigitByte) then none
  else
    let v : Int := if neg then -(digitsToNat digits : Int) else (digitsToNat digits : Int)
    if lo ≤ v && v ≤ hi then some v else none

/-- `i32::from_str`. -/
def parseI32 (s : List Byte) : Option Int := parseIntRust true (-2147483648) 2147483647 s

/-- `u32::from_str` (value returned as a `Nat`). -/
def parseU32 (s : List Byte) : Option Nat :=
  (parseIntRust false 0 4294967295 s).map Int.toNat

/-- `i64::from_str`. -/
def parseI64 (s : List Byte) : Option Int :=
  parseIntRust true (-9223372036854775808) 9223372036854775807 s

/-- `bool::from_str`: exactly `true` or `false`. -/
def parseBoolRust (s : List Byte) : Option Bool :=
  if s = ascii "true" then some true
  else if s = ascii "false" then some false
  else none

/-! ## External collaborator: float parsing (`f64::from_str`)

The accepted grammar is `[+-]? (inf|infinity|nan | digits [. digits?] |
. digits | digits . digits) ([eE] [+-]? digits)?` (case-insensitive for the
special values). The numeric value of a finite literal is kept as the exact
decimal rational; two equal decimal literals denote the same `f64`, so
record-equality claims involving identical literals are decided faithfully
by rational equality. -/

/-- Fold an ASCII byte to lower case. -/
def asciiLower (b : Byte) : Byte := if 65 ≤ b && b ≤ 90 then b + 32 else b

/-- Fold an ASCII byte to upper case. -/
def asciiUpper (b : Byte) : Byte := if 97 ≤ b && b ≤ 122 then b - 32 else b

/-- The value of a parsed `f64` literal: an exact decimal rational, or one
of the special values. -/
inductive F64Val where
  | num (q : Rat)
  | inf (negative : Bool)
  | nan
  deriving DecidableEq, Repr

/-- `f64::from_str`. Returns `none` exactly when Rust returns a
`ParseFloatError`. -/
def parseF64 (s : List Byte) : Option F64Val :=
  let (neg, body) :=
    match s with
    | 43 :: rest => (false, rest)
    | 45 :: rest => (true, rest)
    | rest => (false, rest)
  let lowered := body.map asciiLower
  if lowered = ascii "inf" || lowered = ascii "infinity" then some (.inf neg)
  else if lowered = ascii "nan" then some .nan
  else
    let intPart := body.takeWhile isDigitByte
    let afterInt := body.drop intPart.length
    let (fracPart, afterFrac) :=
      match afterInt with
      | 46 :: rest => (rest.takeWhile isDigitByte, rest.drop (rest.takeWhile isDigitByte).length)
      | _ => ([], afterInt)
    if intPart.isEmpty && fracPart.isEmpty then none
    else
      let mantissa : Int := (digitsToNat (intPart ++ fracPart) : Int)
      let fracLen := fracPart.length
      let finish (exp : Int) : Option F64Val :=
        let scale := exp - (fracLen : Int)
        let q : Rat :=
          if 0 ≤ scale then mkRat (mantissa * ((10 : Int) ^ scale.toNat)) 1
          else mkRat mantissa ((10 : Nat) ^ (-scale).toNat)
        some (.num (if neg then -q else q))
      match afterFrac with
      | [] => finish 0
      | e :: rest =>
        if e == 101 || e == 69 then
          let (eneg, edigits) :=
            match rest with
            | 43 :: r => (false, r)
            | 45 :: r => (true, r)
            | r => (false, r)
          if edigits.isEmpty || !(edigits.all isDigitByte) then none
          else finish (if eneg then -(digitsToNat edigits : Int) else (digitsToNat edigits : Int))
        else none

/-! ## External collaborator: `libc::timegm`

`timegm` interprets a `struct tm` as UTC (no timezone database involved)
and returns seconds since the Unix epoch, normalising out-of-range fields.
Its value is the linear civil-time arithmetic below, using the standard
days-from-civil-date computation for the proleptic Gregorian calendar. -/

/-- Days since 1970-01-01 of the proleptic-Gregorian civil date
`(y, m, d)` with `m` in `1..=12` (`d` may be out of range: each unit is one
day). Standard era/year-of-era computation with floor division. -/
def daysFromCivil (y m d : Int) : Int :=
  let y' := if m ≤ 2 then y - 1 else y
  let era := y'.fdiv 400
  let yoe := y' - era * 400
  let mp := (m + 9).emod 12
  let doy := (153 * mp + 2).fdiv 5 + d - 1
  let doe := yoe * 365 + yoe.fdiv 4 - yoe.fdiv 100 + doy
  era * 146097 + doe - 719468

/-- `libc::timegm` on a `struct tm` holding `(tm_sec, tm_min, tm_hour,
tm_mday, tm_mon, tm_year)` with `tm_isdst = 0`: seconds since the Unix
epoch in UTC, normalising out-of-range fields (months roll into years,
excess days/hours/minutes/seconds are linear). -/
def timegm (tmSec tmMin tmHour tmMday tmMon tmYear : Int) : Int :=
  let months := (1900 + tmYear) * 12 + tmMon
  let y := months.fdiv 12
  let m := months.emod 12 + 1
  daysFromCivil y m tmMday * 86400 + tmHour * 3600 + tmMin * 60 + tmSec

/-! ## Data model (`Record`, `Value`, `ParseError`) -/

/-- `log::Level` (from the `log` crate). -/
inductive Level where
  | trace
  | debug
  | info
  | warn
  | error
  deriving DecidableEq, Repr

/-- `std::time::SystemTime` restricted to the values the parser builds:
`UNIX_EPOCH + Duration::new(secs, nanos)` (on a 64-bit Unix target the
seconds must fit in an `i64`; the overflow case is a panic and is
represented by `none` at the call site). -/
structure SysTime where
  secs : Nat
  nanos : Nat
  deriving DecidableEq, Repr

/-- `Value`: a parsed value from a key-value pair. -/
inductive Value where
  | bool (b : Bool)
  | int (i : Int)
  | float (f : F64Val)
  | string (s : List Byte)
  deriving DecidableEq, Repr

/-- `ParseErrorKind`. The payload of `Io` (an `std::io::Error`) is opaque
and dropped. -/
inductive ParseErrorKind where
  | keyInvalidUt8
  | invalidTimestamp
  | invalidLevel
  | invalidFile
  | invalidValue
  | io
  deriving DecidableEq, Repr

/-- `ParseError`: the offending line (absent for I/O errors) and the error
detail. -/
structure ParseError where
  line : Option (List Byte)
  kind : ParseErrorKind
  deriving DecidableEq, Repr

/-- `HashMap<String, Value>` observed as a key-value association;
`insert` replaces the value of an existing key and otherwise adds the
binding (the model keeps insertion order, which a `HashMap` does not
expose; claims compare maps through their bindings). -/
def kvInsert (m : List (List Byte × Value)) (k : List Byte) (v : Value) :
    List (List Byte × Value) :=
  if m.any (fun p => p.1 = k) then
    m.map (fun p => if p.1 = k then (p.1, v) else p)
  else m ++ [(k, v)]

/-- `HashMap::get`. -/
def kvLookup (m : List (List Byte × Value)) (k : List Byte) : Option Value :=
  (m.find? (fun p => p.1 = k)).map Prod.snd

/-- A parsed log record. -/
structure Record where
  timestamp : Option SysTime
  level : Level
  msg : List Byte
  target : List Byte
  module : Option (List Byte)
  file : Option (List Byte × Nat)
  key_values : List (List Byte × Value)
  deriving DecidableEq, Repr

/-- `Record::empty`. -/
def Record.empty : Record :=
  { timestamp := none
    level := .info
    msg := []
    target := []
    module := none
    file := none
    key_values := [] }

/-! ## Field scanners (pure functions of `src/parser/src/lib.rs`) -/

/-- `single_line`: counts the `\n` bytes at the end of `input` and drops
them (it does not cut at the first newline). -/
def single_line (input : List Byte) : List Byte :=
  let i := (input.reverse.takeWhile (fun b => b == 10)).length
  input.take (input.length - i)

/-- `eat_space`: removes spaces and tabs at the start (not newlines). -/
def eat_space (input : List Byte) : List Byte :=
  input.dropWhile (fun b => b == 32 || b == 9)

/-- `eat_space_end`: removes spaces and tabs at the end. -/
def eat_space_end (input : List Byte) : List Byte :=
  let i := (input.reverse.takeWhile (fun b => b == 32 || b == 9)).length
  input.take (input.length - i)

/-- `parse_key`: scans to the first `=`; the key is everything before it
with trailing spaces/tabs trimmed, checked for UTF-8 validity. When the
input contains no `=` the source evaluates `&[][1..]`, an out-of-bounds
slice: that panic is `none`. Returns `(rest, key)` like the source's
`(input, key)`. -/
def parse_key (input : List Byte) :
    Option (Except ParseErrorKind (List Byte × List Byte)) :=
  let i := (input.takeWhile (fun b => b != 61)).length
  let key_bytes := input.take i
  match input.drop i with
  | [] => none
  | _ :: rest =>
    let key_bytes := eat_space_end key_bytes
    if utf8Valid key_bytes then some (.ok (rest, key_bytes))
    else some (.error .keyInvalidUt8)

/-- The scan loop of `parse_qouted_value`: walks the bytes after the
opening quote keeping the byte count `i` and the running quote count `qc`;
stops at a quote followed by a space, or followed by a newline while `qc`
is even (the `&&` binds tighter than the `||` in the source condition).
Returns the final `i`. -/
def pqvScan : List Byte → Nat → Nat → Nat
  | [], i, _ => i
  | b :: rest, i, qc =>
    if b == 34 then
      let qc := qc + 1
      let nb := rest.head?
      if nb == some 32 || (nb == some 10 && qc % 2 == 0) then i
      else pqvScan rest (i + 1) qc
    else pqvScan rest (i + 1) qc

/-- `parse_qouted_value`: expects `input` to start with a quote. The value
is `input[1..i]` and the rest is `input[i+1..]` (or empty when the scan
ran to the end). On empty input the source would panic on the
`input[1..i]` slice, but `parse_value` only calls it when the first byte
is a quote; the model returns `([], [])` there. -/
def parse_qouted_value (input : List Byte) : List Byte × List Byte :=
  let i := pqvScan input.tail 1 1
  let value := (input.take i).drop 1
  let rest := if i == input.length then [] else input.drop (i + 1)
  (rest, value)

/-- `parse_naked_value`: runs to the first space (` `); a newline does not
end the value. Returns `(rest, value)`. -/
def parse_naked_value (input : List Byte) : List Byte × List Byte :=
  let i := (input.takeWhile (fun b => b != 32)).length
  (input.drop i, input.take i)

/-- `parse_value`: skips leading spaces/tabs, then delegates to the quoted
or naked scanner. -/
def parse_value (input : List Byte) : List Byte × List Byte :=
  let input := eat_space input
  if input.head? == some 34 then parse_qouted_value input
  else parse_naked_value input

/-! ## Typed field decoders -/

/-- `parse_timestamp`: expects exactly 27 bytes shaped
`yyyy-mm-ddThh:mm:ss.nnnnnnZ`, parses the numeric components, converts the
calendar fields with `timegm` and builds `UNIX_EPOCH +
Duration::new(time_offset as u64, nanos)`. The `as u64` cast wraps a
negative `timegm` result modulo `2^64`; on a 64-bit Unix target the
`SystemTime` addition then overflows the `i64` seconds and panics
(`none`). -/
def parse_timestamp (value : List Byte) :
    Option (Except ParseErrorKind SysTime) :=
  if !(value.length == 27 && value.getD 4 0 == 45 && value.getD 7 0 == 45 &&
      value.getD 10 0 == 84 && value.getD 13 0 == 58 && value.getD 16 0 == 58 &&
      value.getD 19 0 == 46 && value.getD 26 0 == 90) then
    some (.error .invalidTimestamp)
  else if !utf8Valid value then some (.error .invalidTimestamp)
  else
    let slice (a b : Nat) : List Byte := (value.drop a).take (b - a)
    match parseI32 (slice 0 4), parseI32 (slice 5 7), parseI32 (slice 8 10),
        parseI32 (slice 11 13), parseI32 (slice 14 16), parseI32 (slice 17 19),
        parseIntRust false 0 4294967295 (slice 20 26) with
    | some year, some month, some day, some hour, some minute, some sec,
        some nanos =>
      let timeOffset := timegm sec minute hour day (month - 1) (year - 1900)
      let secsU64 := (timeOffset.emod 18446744073709551616).toNat
      if secsU64 ≤ 9223372036854775807 then
        some (.ok { secs := secsU64, nanos := nanos.toNat })
      else none
    | _, _, _, _, _, _, _ => some (.error .invalidTimestamp)

/-- `parse_log_level`: `str::from_utf8` then `log::Level::from_str`, which
matches the five severity names ignoring ASCII case. -/
def parse_log_level (value : List Byte) : Except ParseErrorKind Level :=
  if utf8Valid value then
    let u := value.map asciiUpper
    if u = ascii "ERROR" then .ok .error
    else if u = ascii "WARN" then .ok .warn
    else if u = ascii "INFO" then .ok .info
    else if u = ascii "DEBUG" then .ok .debug
    else if u = ascii "TRACE" then .ok .trace
    else .error .invalidLevel
  else .error .invalidLevel

/-- `parse_string`: `str::from_utf8`, keeping the same bytes. -/
def parse_string (value : List Byte) : Except ParseErrorKind (List Byte) :=
  if utf8Valid value then .ok value else .error .invalidValue

/-- `parse_file`: splits at the last `:` (`rsplit_once`), parsing the
suffix as a `u32` line number. -/
def parse_file (value : List Byte) :
    Except ParseErrorKind (List Byte × Nat) :=
  if utf8Valid value then
    let revIdx := (value.reverse.takeWhile (fun b => b != 58)).length
    if revIdx == value.length then .error .invalidFile
    else
      let cut := value.length - revIdx
      let file := value.take (cut - 1)
      let column := value.drop cut
      match parseU32 column with
      | some n => .ok (file, n)
      | none => .error .invalidFile
  else .error .invalidFile

/-- `<Value as FromStr>::from_str`: infers `Bool`, then `Int` (`i64`),
then `Float` (`f64`), falling back to `String`; it never fails. -/
def valueFromStr (value : List Byte) : Value :=
  match parseBoolRust value with
  | some b => .bool b
  | none =>
    match parseI64 value with
    | some i => .int i
    | none =>
      match parseF64 value with
      | some f => .float f
      | none => .string value

/-! ## Line assembler (`Parser::parse_line`) -/

/-- One key's worth of the `match key` dispatch in `parse_line`: routes a
reserved key to its typed decoder and any other key into `key_values`
(`Value::from_str` never fails). `none` propagates a panic from
`parse_timestamp`. -/
def updateRecord (record : Record) (key value : List Byte) :
    Option (Except ParseErrorKind Record) :=
  if key = ascii "ts" then
    match parse_timestamp value with
    | none => none
    | some (.error e) => some (.error e)
    | some (.ok ts) => some (.ok { record with timestamp := some ts })
  else if key = ascii "lvl" then
    match parse_log_level value with
    | .error e => some (.error e)
    | .ok level => some (.ok { record with level := level })
  else if key = ascii "msg" then
    match parse_string value with
    | .error e => some (.error e)
    | .ok msg => some (.ok { record with msg := msg })
  else if key = ascii "target" then
    match parse_string value with
    | .error e => some (.error e)
    | .ok target => some (.ok { record with target := target })
  else if key = ascii "module" then
    match parse_string value with
    | .error e => some (.error e)
    | .ok module' => some (.ok { record with module := some module' })
  else if key = ascii "file" then
    match parse_file value with
    | .error e => some (.error e)
    | .ok fl => some (.ok { record with file := some fl })
  else
    match parse_string value with
    | .error e => some (.error e)
    | .ok v =>
      some (.ok { record with key_values := kvInsert record.key_values key (valueFromStr v) })

/-- Result of one `parse_line` call: a finished line (`Ok(Some)` /
`Ok(None)` for a blank line, with the updated `parsed` offset) or
`Ok(None)` for an incomplete record with `parsed` unchanged. -/
inductive LineStep where
  | done (record : Option Record) (newParsed : Nat)
  | needMore
  deriving DecidableEq, Repr

/-- The loop of `Parser::parse_line`. `bufLen` is `self.buf.len()`;
`input` is the unparsed suffix, so `bufLen - input.length` is the absolute
offset of `input` in the buffer. The fuel only bounds the recursion: one
unit is spent per parsed field and the caller supplies more fuel than the
input has bytes, so fuel exhaustion (`none`, merged with the panic
outcome) is unreachable. -/
def parseLineLoop (fuel : Nat) (hitEof : Bool) (bufLen : Nat)
    (input : List Byte) (record : Record) (recordIsEmpty : Bool) :
    Option (Except ParseErrorKind LineStep) :=
  match fuel with
  | 0 => none
  | fuel + 1 =>
    let input := eat_space input
    if input.isEmpty || input.head? == some 10 then
      let newParsed := bufLen - input.length + (if input.isEmpty then 0 else 1)
      some (.ok (.done (if recordIsEmpty then none else some record) newParsed))
    else
      match parse_key input with
      | none => none
      | some (.error e) => some (.error e)
      | some (.ok (i, key)) =>
        if i.isEmpty then some (.ok .needMore)
        else
          let i2 := (parse_value i).1
          if i2.isEmpty && !hitEof then some (.ok .needMore)
          else
            match updateRecord record key (parse_value i).2 with
            | none => none
            | some (.error e) => some (.error e)
            | some (.ok record') => parseLineLoop fuel hitEof bufLen i2 record' false

/-- `Parser::parse_line`, acting on the suffix `buf[parsed..]` with a fresh
`Record::empty`. -/
def parse_line (hitEof : Bool) (buf : List Byte) (parsed : Nat) :
    Option (Except ParseErrorKind LineStep) :=
  let input := buf.drop parsed
  parseLineLoop (input.length + 1) hitEof buf.length input Record.empty true

/-! ## Sequence driver (`Parser::fill_buf`, `Iterator::next`)

The byte source is a list of read outcomes: `.ok chunk` is a read
delivering `chunk` (a zero-length chunk is a read returning `0`, i.e.
end-of-stream), `.error ()` is a failing read. When the list is exhausted
every further read returns `0`. The source's capacity handling
(`reserve`/`resize`) only sizes the read destination and never changes
buffer contents, so the model appends each delivered chunk whole. -/

deriving instance DecidableEq for Except

/-- Parser state: the remaining read outcomes of the byte source and the
fields of the `Parser` struct. `needs_read` is not modelled because the
source never resets it to `false`, so every iteration of `next` reads. -/
structure PState where
  reader : List (Except Unit (List Byte))
  parsed : Nat
  buf : List Byte
  hitEof : Bool
  deriving DecidableEq, Repr

/-- `Parser::fill_buf`: drains the parsed prefix, performs one read, and
appends the delivered bytes; a read of `0` bytes sets `hit_eof`. On a read
error the drain persists and the error propagates (`true` in the second
component). -/
def fill_buf (s : PState) : PState × Bool :=
  let buf := s.buf.drop s.parsed
  match s.reader with
  | [] => ({ s with buf := buf, parsed := 0, hitEof := true }, false)
  | .ok chunk :: rest =>
    ({ reader := rest, parsed := 0, buf := buf ++ chunk,
       hitEof := s.hitEof || chunk.isEmpty }, false)
  | .error _ :: rest =>
    ({ reader := rest, parsed := 0, buf := buf, hitEof := s.hitEof }, true)

/-- `<Parser as Iterator>::next`: the pull loop. Yields
`some (some item, s)` for one item, `some (none, s)` when the sequence
ends, and `none` for a panic (or fuel exhaustion; each iteration consumes
a read outcome, so `reader.length + 2` units always suffice). On a parse
error the consumed offset advances by the length of the captured line. -/
def Parser.next (fuel : Nat) (s : PState) :
    Option (Option (Except ParseError Record) × PState) :=
  match fuel with
  | 0 => none
  | fuel + 1 =>
    let (s, ioError) := fill_buf s
    if ioError then some (some (.error { line := none, kind := .io }), s)
    else
      match parse_line s.hitEof s.buf s.parsed with
      | none => none
      | some (.error e) =>
        let line := single_line (s.buf.drop s.parsed)
        some (some (.error { line := some line, kind := e }),
          { s with parsed := s.parsed + line.length })
      | some (.ok (.done (some record) p)) =>
        some (some (.ok record), { s with parsed := p })
      | some (.ok (.done none p)) =>
        let s := { s with parsed := p }
        if s.hitEof then some (none, s) else Parser.next fuel s
      | some (.ok .needMore) =>
        if s.hitEof then some (none, s) else Parser.next fuel s

/-- The fresh parser state built by `parse(reader)`. -/
def initState (reader : List (Except Unit (List Byte))) : PState :=
  { reader := reader, parsed := 0, buf := [], hitEof := false }

/-- Drives the iterator to exhaustion, collecting the yielded items in
order. `none` when a pull panics or the fuel (a bound on the number of
items plus one) runs out. -/
def runParser (fuel : Nat) (s : PState) :
    Option (List (Except ParseError Record)) :=
  match fuel with
  | 0 => none
  | fuel + 1 =>
    match Parser.next (s.reader.length + 2) s with
    | none => none
    | some (none, _) => some []
    | some (some item, s') =>
      match runParser fuel s' with
      | none => none
      | some items => some (item :: items)

/-- Parse a byte stream delivered as the given chunks. -/
def parseChunks (fuel : Nat) (chunks : List (List Byte)) :
    Option (List (Except ParseError Record)) :=
  runParser fuel (initState (chunks.map .ok))

/-! ## Definitions for the claim statements -/

/-- The spec's reading of the quoted-value termination condition (claim
C7): a quote immediately followed by a space or a newline **while the
running quote count is even** — the parity check applied to both
terminators. -/
def pqvScanClaim : List Byte → Nat → Nat → Nat
  | [], i, _ => i
  | b :: rest, i, qc =>
    if b == 34 then
      let qc := qc + 1
      let nb := rest.head?
      if (nb == some 32 || nb == some 10) && qc % 2 == 0 then i
      else pqvScanClaim rest (i + 1) qc
    else pqvScanClaim rest (i + 1) qc

/-- The quoted-value scanner as claim C7 words it, with the same slicing
as the source. -/
def parse_qouted_value_claim (input : List Byte) : List Byte × List Byte :=
  let i := pqvScanClaim input.tail 1 1
  let value := (input.take i).drop 1
  let rest := if i == input.length then [] else input.drop (i + 1)
  (rest, value)

/-- The amended termination condition: a quote immediately followed by a
space terminates regardless of the running quote count; a quote
immediately followed by a newline terminates only while the running count
is even. -/
def pqvScanAmended : List Byte → Nat → Nat → Nat
  | [], i, _ => i
  | b :: rest, i, qc =>
    if b == 34 then
      let qc := qc + 1
      let nb := rest.head?
      if nb == some 32 || (nb == some 10 && qc % 2 == 0) then i
      else pqvScanAmended rest (i + 1) qc
    else pqvScanAmended rest (i + 1) qc

/-- The quoted-value scanner as amended claim C7 words it. -/
def parse_qouted_value_amended (input : List Byte) : List Byte × List Byte :=
  let i := pqvScanAmended input.tail 1 1
  let value := (input.take i).drop 1
  let rest := if i == input.length then [] else input.drop (i + 1)
  (rest, value)

/-- Projection of the `parse_line` loop (claim C10): does the line about
to be parsed assign a `lvl` field? Follows exactly the control flow of
`parseLineLoop`, answering `true` precisely when an iteration reaches the
field dispatch with key `lvl`. -/
def hasLvlKey (fuel : Nat) (hitEof : Bool) (input : List Byte) : Bool :=
  match fuel with
  | 0 => false
  | fuel + 1 =>
    let input := eat_space input
    if input.isEmpty || input.head? == some 10 then false
    else
      match parse_key input with
      | none => false
      | some (.error _) => false
      | some (.ok (i, key)) =>
        if i.isEmpty then false
        else
          let i2 := (parse_value i).1
          if i2.isEmpty && !hitEof then false
          else if key = ascii "lvl" then true
          else hasLvlKey fuel hitEof i2

/-- `hasLvlKey` for the line starting at `buf[parsed..]`, with the same
fuel `parse_line` uses. -/
def hasLvlLine (hitEof : Bool) (buf : List Byte) (parsed : Nat) : Bool :=
  hasLvlKey ((buf.drop parsed).length + 1) hitEof (buf.drop parsed)

/-- Input of scenario D (claims C1/C3 use a variant, C4 uses this). -/
def c4Input : List Byte :=
  ascii "bad=\nts=\"2021-02-23T13:15:48.624447Z\" lvl=\"INFO\" msg=\"x\"\n"

/-- The record the parser actually produces on `c4Input`: the naked value
of `bad` runs to the first space, swallowing the newline and the whole
`ts="…"` token. -/
def c4Record : Record :=
  { Record.empty with
    msg := ascii "x"
    key_values := [(ascii "bad", .string (ascii "\nts=\"2021-02-23T13:15:48.624447Z\""))] }

/-- Input of scenario A (claim C5). -/
def c5Input : List Byte :=
  ascii "ts=\"2021-02-23T13:15:48.624447Z\" lvl=\"INFO\" msg=\"hello\" target=\"app\"\n"

/-- The record the parser produces on `c5Input`. `2021-02-23T13:15:48Z` is
`1614086148` seconds after the epoch; the 6-digit fraction `624447` is
passed to `Duration::new` as a nanosecond count without widening. -/
def c5Record : Record :=
  { Record.empty with
    timestamp := some { secs := 1614086148, nanos := 624447 }
    msg := ascii "hello"
    target := ascii "app" }

/-- Input of scenario B (claim C8). -/
def c8Input : List Byte := ascii "foo=bar count=42 ratio=3.14 ok=true\n"

/-- The record the parser actually produces on `c8Input`: the final naked
value runs past the newline, so `ok` maps to the string `true\n`. -/
def c8Record : Record :=
  { Record.empty with
    key_values := [(ascii "foo", .string (ascii "bar")),
                   (ascii "count", .int 42),
                   (ascii "ratio", .float (.num (mkRat 314 100))),
                   (ascii "ok", .string (ascii "true\n"))] }

/-- Byte source for claim C9: one failing read, then a valid line, then
end-of-stream. -/
def c9Reader : List (Except Unit (List Byte)) :=
  [.error (), .ok (ascii "a=1 \n")]

/-- The record delivered after the I/O error item on `c9Reader`. -/
def c9Record : Record :=
  { Record.empty with key_values := [(ascii "a", .int 1)] }

/-- Concrete line for the claim C10 witness. -/
def c10Buf : List Byte := ascii "msg=hi \n"

/-- The record parsed from `c10Buf`. -/
def c10Record : Record := { Record.empty with msg := ascii "hi" }

/-- Input with an invalid `ts` line followed by a valid `msg` line (claims
C1 and C3). -/
def errInput : List Byte := ascii "ts=x y=1\nmsg=ok\n"

/-- First read of the split delivery of `errInput`: the first line. -/
def errFront : List Byte := ascii "ts=x y=1\n"

/-- Second read of the split delivery of `errInput`: the second line. -/
def errBack : List Byte := ascii "msg=ok\n"

/-- The record parsed from the second line when the input arrives split:
the naked value picks up the trailing newline at end-of-stream. -/
def errSplitRecord : Record := { Record.empty with msg := ascii "ok\n" }

/-! ## Helper lemmas -/

/-- The field dispatch leaves `level` unchanged for every key other than
`lvl`. -/
theorem updateRecord_level (record : Record) (key value : List Byte) (record' : Record)
    (hk : ¬key = ascii "lvl")
    (h : updateRecord record key value = some (.ok record')) :
    record'.level = record.level := by
  unfold updateRecord at h
  split_ifs at h
  all_goals split at h <;> simp_all
  all_goals subst h
  all_goals rfl

/-- A `parse_line` loop that completes a record without meeting a `lvl`
key keeps the accumulator's `level`. -/
theorem parseLineLoop_level (fuel : Nat) :
    ∀ (hitEof : Bool) (bufLen : Nat) (input : List Byte) (record : Record)
      (recordIsEmpty : Bool) (r : Record) (p : Nat),
    parseLineLoop fuel hitEof bufLen input record recordIsEmpty =
      some (.ok (.done (some r) p)) →
    hasLvlKey fuel hitEof input = false →
    r.level = record.level := by
  induction fuel with
  | zero =>
    intro _ _ _ _ _ _ _ h _
    simp [parseLineLoop] at h
  | succ n ih =>
    intro hitEof bufLen input record empt r p hrun hlvl
    simp only [parseLineLoop] at hrun
    simp only [hasLvlKey] at hlvl
    by_cases h1 : ((eat_space input).isEmpty || (eat_space input).head? == some 10) = true
    · rw [if_pos h1] at hrun
      cases empt <;> simp_all
    · rw [if_neg h1] at hrun
      rw [if_neg h1] at hlvl
      cases hk : parse_key (eat_space input) with
      | none => rw [hk] at hrun; simp at hrun
      | some ek =>
        cases ek with
        | error e => rw [hk] at hrun; simp at hrun
        | ok pair =>
          obtain ⟨i, key⟩ := pair
          rw [hk] at hrun hlvl
          simp only [] at hrun hlvl
          by_cases h2 : i.isEmpty = true
          · simp only [h2, if_true] at hrun
            simp at hrun
          · rw [if_neg h2] at hrun
            rw [if_neg h2] at hlvl
            by_cases h3 : ((parse_value i).1.isEmpty && !hitEof) = true
            · rw [if_pos h3] at hrun
              simp at hrun
            · rw [if_neg h3] at hrun
              rw [if_neg h3] at hlvl
              cases hu : updateRecord record key (parse_value i).2 with
              | none => rw [hu] at hrun; simp at hrun
              | some eu =>
                cases eu with
                | error e => rw [hu] at hrun; simp at hrun
                | ok record' =>
                  rw [hu] at hrun
                  simp only [] at hrun
                  by_cases h4 : key = ascii "lvl"
                  · rw [if_pos h4] at hlvl
                    simp at hlvl
                  · rw [if_neg h4] at hlvl
                    have hlevel := ih hitEof bufLen (parse_value i).1 record' false r p hrun hlvl
                    rw [hlevel]
                    exact updateRecord_level record key (parse_value i).2 record' h4 hu

/-- The source's scan loop agrees with the amended claim-C7 condition on
every input (the amendment only re-parenthesises the termination
condition to match the `&&`/`||` precedence of the source). -/
theorem pqvScan_eq_amended : ∀ (l : List Byte) (i qc : Nat),
    pqvScan l i qc = pqvScanAmended l i qc := by
  intro l
  induction l with
  | nil => intro i qc; rfl
  | cons b rest ih =>
    intro i qc
    simp only [pqvScan, pqvScanAmended]
    split
    · split
      · rfl
      · exact ih _ _
    · exact ih _ _

/-! ## Claims -/

/-- Claim C1: splitting the byte stream into two reads must not change the
item sequence. It does: delivered whole, `errInput` yields one error item
whose captured line spans both physical lines (and the valid `msg` line is
skipped), while delivered split at byte offset 9 it yields an error item
for the first line only and then the `msg` record. -/
theorem c1_split_read_changes_items :
    parseChunks 20 [errInput] =
      some [.error { line := some (ascii "ts=x y=1\nmsg=ok"), kind := .invalidTimestamp }] ∧
    parseChunks 20 [errFront, errBack] =
      some [.error { line := some (ascii "ts=x y=1"), kind := .invalidTimestamp },
            .ok errSplitRecord] ∧
    parseChunks 20 [errInput] ≠ parseChunks 20 [errFront, errBack] := by
  refine ⟨by decide, by decide, by decide⟩

/-- Claim C2: the parser is claimed never to panic, and a missing `=` in
the buffered bytes is claimed to signal "incomplete". Instead, on input
`hello` (no `=` anywhere) `parse_key` evaluates the out-of-bounds slice
`&[][1..]` and the whole run panics (`none`). -/
theorem c2_key_without_equals_panics :
    parse_key (ascii "hello") = none ∧
    parseChunks 20 [ascii "hello"] = none := by
  refine ⟨by decide, by decide⟩

/-- Claim C3: a decode failure is claimed to capture exactly the offending
line and advance past it only. Instead `single_line` trims only trailing
newlines of the whole unparsed buffer, so on `errInput` the error item
captures both the bad `ts` line and the following valid `msg` line, the
offset advances past both, and the valid line is never parsed. -/
theorem c3_error_swallows_following_line :
    parseChunks 20 [errInput] =
      some [.error { line := some (ascii "ts=x y=1\nmsg=ok"), kind := .invalidTimestamp }] := by
  decide

/-- Claim C4 (counterexample): on scenario D's input the parser yields no
error item at all — every yielded item is a record — contradicting the
claim that the first pull yields an error referencing line `bad=`. -/
theorem c4_counterexample :
    (parseChunks 20 [c4Input]).map (fun items => items.map (fun item => item.isOk)) =
      some [true] := by
  decide

/-- Claim C4 (amended): the naked value of `bad=` runs to the first space,
swallowing the newline and the whole `ts="…"` token, so the input yields
exactly one item: a record with level `Info`, msg `x`, no timestamp, and
`bad` mapped to the string `\nts="2021-02-23T13:15:48.624447Z"`. -/
theorem c4_amended_single_record :
    parseChunks 20 [c4Input] = some [.ok c4Record] := by
  decide

/-- Claim C5: scenario A yields one record with level `Info`, msg `hello`,
target `app`, but its timestamp is `1614086148` seconds plus `624447`
*nanoseconds* after the epoch: the 6-digit fraction is passed to
`Duration::new` unscaled, so the instant is `13:15:48.000624447Z`, not the
claimed `13:15:48.624447Z` (which needs `624447000` nanoseconds). -/
theorem c5_fraction_not_widened :
    parseChunks 20 [c5Input] = some [.ok c5Record] ∧
    c5Record.timestamp = some { secs := 1614086148, nanos := 624447 } ∧
    ¬c5Record.timestamp = some { secs := 1614086148, nanos := 624447000 } := by
  refine ⟨by decide, by decide, by decide⟩

/-- Claim C6: decoding is claimed correct for every representable 4-digit
year including years before 1970. For `1969-12-31T23:59:59.000000Z`,
`timegm` returns `-1`; the `as u64` cast wraps it to `2^64 - 1` seconds,
which overflows `SystemTime` on a 64-bit Unix target: the decoder panics
(`none`) instead of producing the instant one second before the epoch. -/
theorem c6_pre_epoch_timestamp_panics :
    timegm 59 59 23 31 11 69 = -1 ∧
    parse_timestamp (ascii "1969-12-31T23:59:59.000000Z") = none := by
  refine ⟨by decide, by decide⟩

/-- Claim C7 (counterexample): on `""" x` the source scanner terminates at
the third quote — which is followed by a space while the running quote
count is 3, odd — so it returns value `"` and rest ` x`, while a scanner
terminating only at even counts (the claim as stated) would run to the end
and return `"" x`. -/
theorem c7_counterexample :
    parse_qouted_value (ascii "\"\"\" x") = (ascii " x", ascii "\"") ∧
    parse_qouted_value_claim (ascii "\"\"\" x") = ([], ascii "\"\" x") ∧
    parse_qouted_value (ascii "\"\"\" x") ≠ parse_qouted_value_claim (ascii "\"\"\" x") := by
  refine ⟨by decide, by decide, by decide⟩

/-- Claim C7 (amended): the quoted-value scanner terminates exactly at a
quote immediately followed by a space regardless of the running quote
count, or at a quote immediately followed by a newline while the running
count is even; the value is the bytes strictly between the opening quote
and the terminating quote. -/
theorem c7_amended_scanner : ∀ input : List Byte,
    parse_qouted_value input = parse_qouted_value_amended input := by
  intro input
  unfold parse_qouted_value parse_qouted_value_amended
  rw [pqvScan_eq_amended]

/-- Claim C8 (counterexample): on scenario B's input the produced record
maps `ok` to the string `true\n` (the naked value swallowed the trailing
newline), not to `Bool(true)` as claimed. -/
theorem c8_counterexample :
    (parseChunks 20 [c8Input]).map (fun items => items.map (fun item =>
        item.toOption.map (fun r => kvLookup r.key_values (ascii "ok")))) =
      some [some (some (.string (ascii "true\n")))] ∧
    (Value.string (ascii "true\n")) ≠ Value.bool true := by
  refine ⟨by decide, by decide⟩

/-- Claim C8 (amended): scenario B yields exactly one record whose
key-value map is `foo ↦ String "bar"`, `count ↦ Int 42`,
`ratio ↦ Float 3.14`, `ok ↦ String "true\n"`. -/
theorem c8_amended_record :
    parseChunks 20 [c8Input] = some [.ok c8Record] := by
  decide

/-- Claim C9 (counterexample): an `Io` error item is not terminal. With a
source that fails once and then delivers a valid line, the first item is
the `Io` error and the sequence still yields a second item. -/
theorem c9_counterexample :
    (runParser 20 (initState c9Reader)).map (fun items => (items.head?, items.length)) =
      some (some (.error { line := none, kind := .io }), 2) := by
  decide

/-- Claim C9 (amended): an `Io` read failure yields one error item but
does not terminate the sequence; the next pull retries the read, so a
source that fails once and then delivers `a=1 \n` produces the error item
followed by the record `a ↦ Int 1`. -/
theorem c9_amended_items :
    runParser 20 (initState c9Reader) =
      some [.error { line := none, kind := .io }, .ok c9Record] := by
  decide

/-- Claim C10: a line parsed into a record without assigning a `lvl` field
yields level `Info`: `Record::empty` initialises the level to `Info` and
only the `lvl` dispatch overwrites it. -/
theorem c10_missing_lvl_defaults_info (hitEof : Bool) (buf : List Byte) (parsed : Nat)
    (r : Record) (p : Nat)
    (hrun : parse_line hitEof buf parsed = some (.ok (.done (some r) p)))
    (hlvl : hasLvlLine hitEof buf parsed = false) :
    r.level = Level.info := by
  unfold parse_line at hrun
  unfold hasLvlLine at hlvl
  exact parseLineLoop_level _ _ _ _ _ _ _ _ hrun hlvl

/-- Claim C10 (witness): the line `msg=hi \n` parses to a record and has
no `lvl` key, and the theorem applies to give level `Info`. -/
theorem c10_witness :
    parse_line false c10Buf 0 = some (.ok (.done (some c10Record) 8)) ∧
    hasLvlLine false c10Buf 0 = false ∧
    c10Record.level = Level.info :=
  ⟨by decide, by decide,
    c10_missing_lvl_defaults_info false c10Buf 0 c10Record 8 (by decide) (by decide)⟩
